import Mathlib

/-! Shallow embedding of the Morpho pattern-generation core: the L-system
rewriting engine and the 2D/3D turtle interpreters of morpho_lsystems.py,
and the Gray-Scott reaction-diffusion simulator of morpho_patterns.py.
Host numeric primitives (math.cos, math.sin, math.radians and the CAD
method Vector.Normalized) are passed as explicit function parameters so
that every definition stays computable; theorems about trigonometric
behaviour instantiate them at Real.cos, Real.sin and the degree-to-radian
conversion. -/

/-- Production rules of an L-system: a finite map from symbols to
replacement strings, as an association list (the Python dict has
single-character keys). -/
abbrev Rules := List (Char × String)

/-- The replacement rules.get(char, char) performed inside
LSystem.generate: the rule for a symbol when one exists, otherwise the
symbol itself. -/
def applyRules (rules : Rules) (c : Char) : String :=
  (rules.lookup c).getD (String.singleton c)

/-- One pass of LSystem.generate: build the next string by replacing
every symbol of the current string, accumulating into next_string. -/
def genStep (rules : Rules) (current : String) : String :=
  current.data.foldl (fun acc c => acc ++ applyRules rules c) ""

/-- LSystem.generate: apply the rewriting pass the given number of times
to the ax string. -/
def generate (rules : Rules) (ax : String) : Nat → String
  | 0 => ax
  | n + 1 => generate rules (genStep rules ax) n

/-- State of the 2D turtle of LSystem.interpret_2d: position (x, y with z
carried along unchanged), heading angle in degrees, current step length,
the branch stack of (x, y, direction, current_length) snapshots, and the
list of emitted segments. -/
structure Turtle2D (K : Type) where
  x : K
  y : K
  z : K
  direction : K
  current_length : K
  stack : List (K × K × K × K)
  lines : List ((K × K × K) × (K × K × K))

/-- One command of the LSystem.interpret_2d dispatch chain.  cosf, sinf
and radf stand for math.cos, math.sin and math.radians; angle is
self.angle and length_decay the push-time decay factor. -/
def step2d {K : Type} [Field K] (cosf sinf radf : K → K)
    (angle length_decay : K) (st : Turtle2D K) (cmd : Char) : Turtle2D K :=
  if cmd = 'F' ∨ cmd = 'G' then
    let rad := radf st.direction
    let nx := st.x + st.current_length * cosf rad
    let ny := st.y + st.current_length * sinf rad
    { st with x := nx, y := ny,
              lines := st.lines ++ [((st.x, st.y, st.z), (nx, ny, st.z))] }
  else if cmd = 'f' then
    let rad := radf st.direction
    { st with x := st.x + st.current_length * cosf rad,
              y := st.y + st.current_length * sinf rad }
  else if cmd = '+' then
    { st with direction := st.direction - angle }
  else if cmd = '-' then
    { st with direction := st.direction + angle }
  else if cmd = '[' then
    { st with stack := (st.x, st.y, st.direction, st.current_length) :: st.stack,
              current_length := st.current_length * length_decay }
  else if cmd = ']' then
    match st.stack with
    | [] => st
    | (sx, sy, sdir, slen) :: rest =>
      { st with x := sx, y := sy, direction := sdir, current_length := slen,
                stack := rest }
  else if cmd = '|' then
    { st with direction := st.direction + 180 }
  else st

/-- LSystem.interpret_2d: run the command string from the start point and
return the emitted segments, each a pair of (x, y, z) endpoints. -/
def interpret_2d {K : Type} [Field K] (cosf sinf radf : K → K) (angle : K)
    (commands : String) (start_point : K × K × K)
    (initial_angle length length_decay : K) :
    List ((K × K × K) × (K × K × K)) :=
  (commands.data.foldl (step2d cosf sinf radf angle length_decay)
    ⟨start_point.1, start_point.2.1, start_point.2.2, initial_angle,
     length, [], []⟩).lines

/-- A 3-component vector with named x, y, z fields, mirroring the host
Vector/Point values used by the 3D interpreter. -/
@[ext]
structure Vec3 (K : Type) where
  x : K
  y : K
  z : K

/-- Euclidean dot product of two 3-vectors. -/
def Vec3.dot {K : Type} [Field K] (v w : Vec3 K) : K :=
  v.x * w.x + v.y * w.y + v.z * w.z

/-- Cross product of two 3-vectors. -/
def Vec3.cross {K : Type} [Field K] (v w : Vec3 K) : Vec3 K :=
  ⟨v.y * w.z - v.z * w.y, v.z * w.x - v.x * w.z, v.x * w.y - v.y * w.x⟩

/-- Componentwise sum of two 3-vectors. -/
def Vec3.add {K : Type} [Field K] (v w : Vec3 K) : Vec3 K :=
  ⟨v.x + w.x, v.y + w.y, v.z + w.z⟩

/-- Scalar multiple of a 3-vector. -/
def Vec3.smul {K : Type} [Field K] (v : Vec3 K) (c : K) : Vec3 K :=
  ⟨c * v.x, c * v.y, c * v.z⟩

/-- LSystem._rotate_vector: rotate v around axis by angle (radians),
translated componentwise from the source.  cosf and sinf stand for
math.cos and math.sin. -/
def rotate_vector {K : Type} [Field K] (cosf sinf : K → K)
    (v axis : Vec3 K) (angle : K) : Vec3 K :=
  let cos_a := cosf angle
  let sin_a := sinf angle
  ⟨v.x * cos_a + (axis.y * v.z - axis.z * v.y) * sin_a +
     axis.x * (axis.x * v.x + axis.y * v.y + axis.z * v.z) * (1 - cos_a),
   v.y * cos_a + (axis.z * v.x - axis.x * v.z) * sin_a +
     axis.y * (axis.x * v.x + axis.y * v.y + axis.z * v.z) * (1 - cos_a),
   v.z * cos_a + (axis.x * v.y - axis.y * v.x) * sin_a +
     axis.z * (axis.x * v.x + axis.y * v.y + axis.z * v.z) * (1 - cos_a)⟩

/-- The vector form of the Rodrigues rotation formula exactly as the
specification words it: v cos θ plus (axis x v) sin θ plus
axis (axis . v)(1 - cos θ). -/
def rodriguesSpec {K : Type} [Field K] (cosf sinf : K → K)
    (v axis : Vec3 K) (angle : K) : Vec3 K :=
  ((v.smul (cosf angle)).add ((axis.cross v).smul (sinf angle))).add
    (axis.smul ((axis.dot v) * (1 - cosf angle)))

/-- State of the 3D turtle of LSystem.interpret_3d: position, the
heading/left/up frame, current step length, the branch stack of
(position, heading, left, up, current_length) snapshots, and the list of
emitted segments. -/
structure Turtle3D (K : Type) where
  position : Vec3 K
  heading : Vec3 K
  left : Vec3 K
  up : Vec3 K
  current_length : K
  stack : List (Vec3 K × Vec3 K × Vec3 K × Vec3 K × K)
  lines : List (Vec3 K × Vec3 K)

/-- One command of the LSystem.interpret_3d dispatch chain.  angle_rad is
the radian angle precomputed once per interpretation run. -/
def step3d {K : Type} [Field K] (cosf sinf : K → K)
    (angle_rad length_decay : K) (st : Turtle3D K) (cmd : Char) :
    Turtle3D K :=
  if cmd = 'F' ∨ cmd = 'G' then
    let new_pos : Vec3 K :=
      ⟨st.position.x + st.heading.x * st.current_length,
       st.position.y + st.heading.y * st.current_length,
       st.position.z + st.heading.z * st.current_length⟩
    { st with position := new_pos, lines := st.lines ++ [(st.position, new_pos)] }
  else if cmd = 'f' then
    { st with position :=
        ⟨st.position.x + st.heading.x * st.current_length,
         st.position.y + st.heading.y * st.current_length,
         st.position.z + st.heading.z * st.current_length⟩ }
  else if cmd = '+' then
    { st with heading := rotate_vector cosf sinf st.heading st.up (-angle_rad),
              left := rotate_vector cosf sinf st.left st.up (-angle_rad) }
  else if cmd = '-' then
    { st with heading := rotate_vector cosf sinf st.heading st.up angle_rad,
              left := rotate_vector cosf sinf st.left st.up angle_rad }
  else if cmd = '&' then
    { st with heading := rotate_vector cosf sinf st.heading st.left (-angle_rad),
              up := rotate_vector cosf sinf st.up st.left (-angle_rad) }
  else if cmd = '^' then
    { st with heading := rotate_vector cosf sinf st.heading st.left angle_rad,
              up := rotate_vector cosf sinf st.up st.left angle_rad }
  else if cmd = '\\' then
    { st with left := rotate_vector cosf sinf st.left st.heading angle_rad,
              up := rotate_vector cosf sinf st.up st.heading angle_rad }
  else if cmd = '/' then
    { st with left := rotate_vector cosf sinf st.left st.heading (-angle_rad),
              up := rotate_vector cosf sinf st.up st.heading (-angle_rad) }
  else if cmd = '[' then
    { st with stack := (st.position, st.heading, st.left, st.up,
                        st.current_length) :: st.stack,
              current_length := st.current_length * length_decay }
  else if cmd = ']' then
    match st.stack with
    | [] => st
    | (p, hv, lv, uv, len) :: rest =>
      { st with position := p, heading := hv, left := lv, up := uv,
                current_length := len, stack := rest }
  else st

/-- LSystem.interpret_3d: run the command string in 3D and return the
emitted segments.  normf stands for the host method Vector.Normalized
applied to the initial direction; the default direction is (0, 0, 1) and
the initial left/up auxiliary vectors are the fixed world axes. -/
def interpret_3d {K : Type} [Field K] (cosf sinf radf : K → K)
    (normf : Vec3 K → Vec3 K) (angle : K) (commands : String)
    (start_point : Vec3 K) (initial_direction : Option (Vec3 K))
    (length length_decay : K) : List (Vec3 K × Vec3 K) :=
  (commands.data.foldl (step3d cosf sinf (radf angle) length_decay)
    ⟨start_point, normf (initial_direction.getD ⟨0, 0, 1⟩),
     ⟨-1, 0, 0⟩, ⟨0, 1, 0⟩, length, [], []⟩).lines

/-- Mutual orthonormality of the heading/left/up frame: each vector has
unit dot square and the pairwise dot products vanish. -/
def OrthonormalFrame {K : Type} [Field K] (hv lv uv : Vec3 K) : Prop :=
  hv.dot hv = 1 ∧ lv.dot lv = 1 ∧ uv.dot uv = 1 ∧
  hv.dot lv = 0 ∧ hv.dot uv = 0 ∧ lv.dot uv = 0

/-- Agreement of two 2D turtle states on everything except the emitted
segments: position, heading, step length and branch stack. -/
def sameState {K : Type} (a b : Turtle2D K) : Prop :=
  a.x = b.x ∧ a.y = b.y ∧ a.z = b.z ∧ a.direction = b.direction ∧
  a.current_length = b.current_length ∧ a.stack = b.stack

/-- Command strings whose brackets are fully matched, with arbitrary
other commands interspersed. -/
inductive BalInner : List Char → Prop where
  | nil : BalInner []
  | chr : ∀ (c : Char) (s : List Char), c ≠ '[' → c ≠ ']' →
      BalInner s → BalInner (c :: s)
  | grp : ∀ (s t : List Char), BalInner s → BalInner t →
      BalInner ('[' :: (s ++ ']' :: t))

/-- Command strings consisting only of matched bracket groups: every
command occurs inside some matched bracket pair, and every bracket is
matched. -/
inductive BalGroups : List Char → Prop where
  | nil : BalGroups []
  | grp : ∀ (s t : List Char), BalInner s → BalGroups t →
      BalGroups ('[' :: (s ++ ']' :: t))

/-- The number of forward-and-draw commands in a command string. -/
def countFG (commands : String) : Nat :=
  (commands.data.filter (fun c => c == 'F' || c == 'G')).length

/-- The expected segment list of the 2D interpreter, occurrence by
occurrence: walking the command list, exactly one segment at each F or
G, built from the turtle state reached at that command, and no entry
for any other symbol, in traversal order. -/
def segs2d {K : Type} [Field K] (cosf sinf radf : K → K)
    (angle length_decay : K) :
    List Char → Turtle2D K → List ((K × K × K) × (K × K × K))
  | [], _ => []
  | c :: l, st =>
    (if c = 'F' ∨ c = 'G' then
      [((st.x, st.y, st.z),
        (st.x + st.current_length * cosf (radf st.direction),
         st.y + st.current_length * sinf (radf st.direction), st.z))]
    else []) ++
      segs2d cosf sinf radf angle length_decay l
        (step2d cosf sinf radf angle length_decay st c)

/-- The expected segment list of the 3D interpreter, occurrence by
occurrence: exactly one segment at each F or G, built from the turtle
state reached at that command, and no entry for any other symbol, in
traversal order. -/
def segs3d {K : Type} [Field K] (cosf sinf : K → K)
    (angle_rad length_decay : K) :
    List Char → Turtle3D K → List (Vec3 K × Vec3 K)
  | [], _ => []
  | c :: l, st =>
    (if c = 'F' ∨ c = 'G' then
      [(st.position,
        (⟨st.position.x + st.heading.x * st.current_length,
          st.position.y + st.heading.y * st.current_length,
          st.position.z + st.heading.z * st.current_length⟩ : Vec3 K))]
    else []) ++
      segs3d cosf sinf angle_rad length_decay l
        (step3d cosf sinf angle_rad length_decay st c)

/-- Concentration grid of the Gray-Scott simulator: a list of rows of
rational concentrations (the Python list-of-lists of floats). -/
abbrev Grid := List (List ℚ)

/-- Read a grid cell, row y and column x; all uses are in bounds. -/
def gget (g : Grid) (y x : Nat) : ℚ :=
  (g.getD y []).getD x 0

/-- The laplacian helper of reaction_diffusion: the discrete toroidal
4-neighbor Laplacian at (x, y), with the Python modulo wraparound on
both axes written over the integers. -/
def laplacian (grid : Grid) (x y : Nat) : ℚ :=
  let h := grid.length
  let w := (grid.getD 0 []).length
  let center := gget grid y x
  let top := gget grid (((y : ℤ) - 1) % (h : ℤ)).toNat x
  let bottom := gget grid (((y : ℤ) + 1) % (h : ℤ)).toNat x
  let left := gget grid y (((x : ℤ) - 1) % (w : ℤ)).toNat
  let right := gget grid y (((x : ℤ) + 1) % (w : ℤ)).toNat
  top + bottom + left + right - 4 * center

/-- The toroidal 4-neighbor Laplacian exactly as the specification words
it: sum of the up/down/left/right neighbor values minus 4 times the
center, wrapping indices modulo the grid dimensions on both axes. -/
def lapSpec (g : Grid) (h w y x : Nat) : ℚ :=
  gget g ((y + h - 1) % h) x + gget g ((y + 1) % h) x +
    gget g y ((x + w - 1) % w) + gget g y ((x + 1) % w) - 4 * gget g y x

/-- One simulation step of reaction_diffusion: both next grids are built
cell by cell from the previous grids A and B, with diffusion rates
dA = 1, dB = 1/2, time step dt = 1, and each new value clamped to
[0, 1]. -/
def rdStep (width height : Nat) (feed_rate kill_rate : ℚ) (A B : Grid) :
    Grid × Grid :=
  let newA := (List.range height).map (fun y => (List.range width).map (fun x =>
    let a := gget A y x
    let b := gget B y x
    let lapA := laplacian A x y
    let reaction := a * b * b
    max 0 (min 1 (a + 1 * (1 * lapA - reaction + feed_rate * (1 - a))))))
  let newB := (List.range height).map (fun y => (List.range width).map (fun x =>
    let a := gget A y x
    let b := gget B y x
    let lapB := laplacian B x y
    let reaction := a * b * b
    max 0 (min 1 (b + 1 * ((1 / 2) * lapB + reaction -
      (kill_rate + feed_rate) * b)))))
  (newA, newB)

/-- Write value v into row y, column x of a grid; out-of-range indices
leave the grid unchanged (all uses are guarded to be in bounds). -/
def setCell (g : Grid) (y x : Nat) (v : ℚ) : Grid :=
  g.set y ((g.getD y []).set x v)

/-- The dy/dx offsets range(-3, 4) of the seeding loops. -/
def spotOffsets : List ℤ := [-3, -2, -1, 0, 1, 2, 3]

/-- Seed one 7x7 block of B = 1.0 around center (cx, cy), clipped to the
grid bounds, exactly as the nested dy/dx loops do. -/
def seedSpot (height width : Nat) (B : Grid) (c : ℤ × ℤ) : Grid :=
  spotOffsets.foldl (fun B1 dy => spotOffsets.foldl (fun B2 dx =>
    if 0 ≤ c.2 + dy ∧ c.2 + dy < (height : ℤ) ∧
       0 ≤ c.1 + dx ∧ c.1 + dx < (width : ℤ) then
      setCell B2 (c.2 + dy).toNat (c.1 + dx).toNat 1
    else B2) B1) B

/-- Seed all random spots in order. -/
def seedSpots (height width : Nat) (B : Grid) (cs : List (ℤ × ℤ)) : Grid :=
  cs.foldl (seedSpot height width) B

/-- Modelled from the spec: the Python random module (Mersenne Twister)
used by reaction_diffusion is not part of the repository; the spec only
requires a random process that is deterministic given the seed.  It is
modelled as a linear congruential generator over the integers. -/
def rngNext (state : ℤ) : ℤ :=
  (state * 1103515245 + 12345) % 2147483648

/-- Modelled from the spec: random.randint(lo, hi) returns an integer in
[lo, hi], deterministically given the generator state, and fails (the
Python call raises ValueError) when the range is empty.  Returns the
drawn value and the next generator state. -/
def randint (state lo hi : ℤ) : Option (ℤ × ℤ) :=
  if hi < lo then none
  else some (lo + rngNext state % (hi - lo + 1), rngNext state)

/-- The seeding loop of reaction_diffusion: draw n random centers, each
cx from randint(10, width - 10) and cy from randint(10, height - 10),
threading the generator state; fails if any range is empty. -/
def genCenters (width height : Nat) : ℤ → Nat → Option (List (ℤ × ℤ) × ℤ)
  | state, 0 => some ([], state)
  | state, n + 1 =>
    match randint state 10 ((width : ℤ) - 10) with
    | none => none
    | some (cx, s1) =>
      match randint s1 10 ((height : ℤ) - 10) with
      | none => none
      | some (cy, s2) =>
        match genCenters width height s2 n with
        | none => none
        | some (rest, s3) => some ((cx, cy) :: rest, s3)

/-- The initial activator grid A: 1.0 everywhere, height rows of width
cells. -/
def initA (width height : Nat) : Grid :=
  (List.range height).map (fun _ => (List.range width).map (fun _ => (1 : ℚ)))

/-- The initial inhibitor grid B: 0.0 everywhere, then seeded with the
random 7x7 blocks of 1.0. -/
def initB (width height : Nat) (cs : List (ℤ × ℤ)) : Grid :=
  seedSpots height width
    ((List.range height).map (fun _ => (List.range width).map (fun _ => (0 : ℚ))))
    cs

/-- One iteration of the simulation loop on the paired grids. -/
def rdIter (width height : Nat) (feed_rate kill_rate : ℚ)
    (p : Grid × Grid) : Grid × Grid :=
  rdStep width height feed_rate kill_rate p.1 p.2

/-- The paired grids after n iterations from the seeded initial state. -/
def rdState (width height : Nat) (feed_rate kill_rate : ℚ)
    (cs : List (ℤ × ℤ)) (n : Nat) : Grid × Grid :=
  (rdIter width height feed_rate kill_rate)^[n]
    (initA width height, initB width height cs)

/-- reaction_diffusion: seed the grids from the pseudorandom process,
run the fixed number of iterations, and return the final B field; fails
exactly when the seeding process fails. -/
def reaction_diffusion (width height iterations : Nat)
    (feed_rate kill_rate : ℚ) (seed : ℤ) : Option Grid :=
  match genCenters width height seed 10 with
  | none => none
  | some (cs, _) =>
    some (rdState width height feed_rate kill_rate cs iterations).2

/-- Boolean check that a concentration lies in [0, 1]. -/
def cellOK (q : ℚ) : Bool :=
  decide (0 ≤ q) && decide (q ≤ 1)

/-- Boolean check that a row has the expected width and every cell lies
in [0, 1]. -/
def rowOK (w : Nat) (r : List ℚ) : Bool :=
  decide (r.length = w) && r.all cellOK

/-- Boolean check that a grid has the expected dimensions and every cell
lies in [0, 1]. -/
def gridOK (h w : Nat) (g : Grid) : Bool :=
  decide (g.length = h) && g.all (rowOK w)

/-! Theorems.  Helper lemmas come first, then one theorem per claim. -/

lemma genStep_data_aux (rules : Rules) (l : List Char) (acc : String) :
    (l.foldl (fun a c => a ++ applyRules rules c) acc).data =
      acc.data ++ (l.map (fun c => (applyRules rules c).data)).flatten := by
  induction l generalizing acc with
  | nil => simp
  | cons c l ih => simp [ih, String.data_append]

/-- C1: LSystem.generate performs a simultaneous generation-boundary
rewrite: every pass maps each symbol of the current string independently
to its replacement (or itself, absent a rule), the full result of one
pass feeding the next pass, and for the rules A to AB and B to A with
starting string A the first three generations are AB, ABA and ABAAB as
exact string equalities. -/
theorem generate_fibonacci_word :
    (∀ (rules : Rules) (s : String),
      (genStep rules s).data =
        (s.data.map (fun c => (applyRules rules c).data)).flatten) ∧
    (∀ (rules : Rules) (ax : String) (n : Nat),
      generate rules ax (n + 1) = generate rules (genStep rules ax) n) ∧
    generate [('A', "AB"), ('B', "A")] "A" 1 = "AB" ∧
    generate [('A', "AB"), ('B', "A")] "A" 2 = "ABA" ∧
    generate [('A', "AB"), ('B', "A")] "A" 3 = "ABAAB" := by
  refine ⟨fun rules s => ?_, fun rules ax n => rfl, ?_, ?_, ?_⟩
  · simpa [genStep] using genStep_data_aux rules s.data ""
  · rfl
  · rfl
  · rfl

/-- C7: LSystem._rotate_vector computes exactly the Rodrigues rotation
formula, componentwise for x, y and z, for every vector, axis and
angle over the exact reals. -/
theorem rotate_vector_rodrigues (v axis : Vec3 ℝ) (angle : ℝ) :
    rotate_vector Real.cos Real.sin v axis angle =
      rodriguesSpec Real.cos Real.sin v axis angle := by
  ext <;>
    simp only [rotate_vector, rodriguesSpec, Vec3.add, Vec3.smul, Vec3.cross,
      Vec3.dot] <;>
    ring

lemma rotate_vector_dot {K : Type} [Field K] (cosf sinf : K → K) (a : K)
    (hsc : sinf a ^ 2 + cosf a ^ 2 = 1) (axis v w : Vec3 K)
    (hn : axis.dot axis = 1) :
    (rotate_vector cosf sinf v axis a).dot (rotate_vector cosf sinf w axis a) =
      v.dot w := by
  simp only [rotate_vector, Vec3.dot] at hn ⊢
  linear_combination
    (v.x * w.x + v.y * w.y + v.z * w.z -
      (axis.x * v.x + axis.y * v.y + axis.z * v.z) *
        (axis.x * w.x + axis.y * w.y + axis.z * w.z)) * hsc +
    (sinf a ^ 2 * (v.x * w.x + v.y * w.y + v.z * w.z) +
      (1 - cosf a) ^ 2 * (axis.x * v.x + axis.y * v.y + axis.z * v.z) *
        (axis.x * w.x + axis.y * w.y + axis.z * w.z)) * hn

lemma rotate_vector_dot_axis_right {K : Type} [Field K] (cosf sinf : K → K)
    (a : K) (axis v : Vec3 K) (hn : axis.dot axis = 1) :
    (rotate_vector cosf sinf v axis a).dot axis = v.dot axis := by
  simp only [rotate_vector, Vec3.dot] at hn ⊢
  linear_combination
    ((axis.x * v.x + axis.y * v.y + axis.z * v.z) * (1 - cosf a)) * hn

lemma rotate_vector_dot_axis_left {K : Type} [Field K] (cosf sinf : K → K)
    (a : K) (axis v : Vec3 K) (hn : axis.dot axis = 1) :
    axis.dot (rotate_vector cosf sinf v axis a) = axis.dot v := by
  simp only [rotate_vector, Vec3.dot] at hn ⊢
  linear_combination
    ((axis.x * v.x + axis.y * v.y + axis.z * v.z) * (1 - cosf a)) * hn

lemma orthonormal_yaw {K : Type} [Field K] (cosf sinf : K → K) (a : K)
    (hsc : sinf a ^ 2 + cosf a ^ 2 = 1) (hv lv uv : Vec3 K)
    (ho : OrthonormalFrame hv lv uv) :
    OrthonormalFrame (rotate_vector cosf sinf hv uv a)
      (rotate_vector cosf sinf lv uv a) uv := by
  obtain ⟨h1, h2, h3, h4, h5, h6⟩ := ho
  refine ⟨?_, ?_, h3, ?_, ?_, ?_⟩
  · rw [rotate_vector_dot cosf sinf a hsc uv hv hv h3]; exact h1
  · rw [rotate_vector_dot cosf sinf a hsc uv lv lv h3]; exact h2
  · rw [rotate_vector_dot cosf sinf a hsc uv hv lv h3]; exact h4
  · rw [rotate_vector_dot_axis_right cosf sinf a uv hv h3]; exact h5
  · rw [rotate_vector_dot_axis_right cosf sinf a uv lv h3]; exact h6

lemma orthonormal_pitch {K : Type} [Field K] (cosf sinf : K → K) (a : K)
    (hsc : sinf a ^ 2 + cosf a ^ 2 = 1) (hv lv uv : Vec3 K)
    (ho : OrthonormalFrame hv lv uv) :
    OrthonormalFrame (rotate_vector cosf sinf hv lv a) lv
      (rotate_vector cosf sinf uv lv a) := by
  obtain ⟨h1, h2, h3, h4, h5, h6⟩ := ho
  refine ⟨?_, h2, ?_, ?_, ?_, ?_⟩
  · rw [rotate_vector_dot cosf sinf a hsc lv hv hv h2]; exact h1
  · rw [rotate_vector_dot cosf sinf a hsc lv uv uv h2]; exact h3
  · rw [rotate_vector_dot_axis_right cosf sinf a lv hv h2]; exact h4
  · rw [rotate_vector_dot cosf sinf a hsc lv hv uv h2]; exact h5
  · rw [rotate_vector_dot_axis_left cosf sinf a lv uv h2]; exact h6

lemma orthonormal_roll {K : Type} [Field K] (cosf sinf : K → K) (a : K)
    (hsc : sinf a ^ 2 + cosf a ^ 2 = 1) (hv lv uv : Vec3 K)
    (ho : OrthonormalFrame hv lv uv) :
    OrthonormalFrame hv (rotate_vector cosf sinf lv hv a)
      (rotate_vector cosf sinf uv hv a) := by
  obtain ⟨h1, h2, h3, h4, h5, h6⟩ := ho
  refine ⟨h1, ?_, ?_, ?_, ?_, ?_⟩
  · rw [rotate_vector_dot cosf sinf a hsc hv lv lv h1]; exact h2
  · rw [rotate_vector_dot cosf sinf a hsc hv uv uv h1]; exact h3
  · rw [rotate_vector_dot_axis_left cosf sinf a hv lv h1]; exact h4
  · rw [rotate_vector_dot_axis_left cosf sinf a hv uv h1]; exact h5
  · rw [rotate_vector_dot cosf sinf a hsc hv lv uv h1]; exact h6

/-- C3: in the 3D interpreter over exact real arithmetic, a mutually
orthonormal heading/left/up frame stays mutually orthonormal after
processing any sequence of the rotation commands. -/
theorem interpret_3d_frame_orthonormal (θ decay : ℝ) (cmds : List Char)
    (hc : ∀ c ∈ cmds,
      c = '+' ∨ c = '-' ∨ c = '&' ∨ c = '^' ∨ c = '\\' ∨ c = '/')
    (st : Turtle3D ℝ) (ho : OrthonormalFrame st.heading st.left st.up) :
    OrthonormalFrame
      (cmds.foldl (step3d Real.cos Real.sin θ decay) st).heading
      (cmds.foldl (step3d Real.cos Real.sin θ decay) st).left
      (cmds.foldl (step3d Real.cos Real.sin θ decay) st).up := by
  induction cmds generalizing st with
  | nil => simpa using ho
  | cons c cs ih =>
    have hc0 := hc c (List.mem_cons_self c cs)
    have hcs : ∀ d ∈ cs,
        d = '+' ∨ d = '-' ∨ d = '&' ∨ d = '^' ∨ d = '\\' ∨ d = '/' :=
      fun d hd => hc d (List.mem_cons_of_mem c hd)
    rw [List.foldl_cons]
    rcases hc0 with h | h | h | h | h | h <;> subst h
    · have e : step3d Real.cos Real.sin θ decay st '+' =
          { st with
            heading := rotate_vector Real.cos Real.sin st.heading st.up (-θ),
            left := rotate_vector Real.cos Real.sin st.left st.up (-θ) } := by
        simp [step3d]
      rw [e]
      exact ih hcs _ (orthonormal_yaw Real.cos Real.sin (-θ)
        (Real.sin_sq_add_cos_sq (-θ)) st.heading st.left st.up ho)
    · have e : step3d Real.cos Real.sin θ decay st '-' =
          { st with
            heading := rotate_vector Real.cos Real.sin st.heading st.up θ,
            left := rotate_vector Real.cos Real.sin st.left st.up θ } := by
        simp [step3d]
      rw [e]
      exact ih hcs _ (orthonormal_yaw Real.cos Real.sin θ
        (Real.sin_sq_add_cos_sq θ) st.heading st.left st.up ho)
    · have e : step3d Real.cos Real.sin θ decay st '&' =
          { st with
            heading := rotate_vector Real.cos Real.sin st.heading st.left (-θ),
            up := rotate_vector Real.cos Real.sin st.up st.left (-θ) } := by
        simp [step3d]
      rw [e]
      exact ih hcs _ (orthonormal_pitch Real.cos Real.sin (-θ)
        (Real.sin_sq_add_cos_sq (-θ)) st.heading st.left st.up ho)
    · have e : step3d Real.cos Real.sin θ decay st '^' =
          { st with
            heading := rotate_vector Real.cos Real.sin st.heading st.left θ,
            up := rotate_vector Real.cos Real.sin st.up st.left θ } := by
        simp [step3d]
      rw [e]
      exact ih hcs _ (orthonormal_pitch Real.cos Real.sin θ
        (Real.sin_sq_add_cos_sq θ) st.heading st.left st.up ho)
    · have e : step3d Real.cos Real.sin θ decay st '\\' =
          { st with
            left := rotate_vector Real.cos Real.sin st.left st.heading θ,
            up := rotate_vector Real.cos Real.sin st.up st.heading θ } := by
        simp [step3d]
      rw [e]
      exact ih hcs _ (orthonormal_roll Real.cos Real.sin θ
        (Real.sin_sq_add_cos_sq θ) st.heading st.left st.up ho)
    · have e : step3d Real.cos Real.sin θ decay st '/' =
          { st with
            left := rotate_vector Real.cos Real.sin st.left st.heading (-θ),
            up := rotate_vector Real.cos Real.sin st.up st.heading (-θ) } := by
        simp [step3d]
      rw [e]
      exact ih hcs _ (orthonormal_roll Real.cos Real.sin (-θ)
        (Real.sin_sq_add_cos_sq (-θ)) st.heading st.left st.up ho)

theorem interpret_3d_frame_orthonormal_witness :
    (∀ c ∈ ['+', '&', '\\'],
      c = '+' ∨ c = '-' ∨ c = '&' ∨ c = '^' ∨ c = '\\' ∨ c = '/') ∧
    OrthonormalFrame (⟨0, 0, 1⟩ : Vec3 ℝ) ⟨-1, 0, 0⟩ ⟨0, 1, 0⟩ ∧
    OrthonormalFrame
      ((['+', '&', '\\'].foldl (step3d Real.cos Real.sin (Real.pi / 3) 1)
        ⟨⟨0, 0, 0⟩, ⟨0, 0, 1⟩, ⟨-1, 0, 0⟩, ⟨0, 1, 0⟩, 10, [], []⟩).heading)
      ((['+', '&', '\\'].foldl (step3d Real.cos Real.sin (Real.pi / 3) 1)
        ⟨⟨0, 0, 0⟩, ⟨0, 0, 1⟩, ⟨-1, 0, 0⟩, ⟨0, 1, 0⟩, 10, [], []⟩).left)
      ((['+', '&', '\\'].foldl (step3d Real.cos Real.sin (Real.pi / 3) 1)
        ⟨⟨0, 0, 0⟩, ⟨0, 0, 1⟩, ⟨-1, 0, 0⟩, ⟨0, 1, 0⟩, 10, [], []⟩).up) :=
  ⟨by decide, by norm_num [OrthonormalFrame, Vec3.dot],
    interpret_3d_frame_orthonormal (Real.pi / 3) 1 ['+', '&', '\\']
      (by decide) ⟨⟨0, 0, 0⟩, ⟨0, 0, 1⟩, ⟨-1, 0, 0⟩, ⟨0, 1, 0⟩, 10, [], []⟩
      (by norm_num [OrthonormalFrame, Vec3.dot])⟩

lemma step2d_z {K : Type} [Field K] (cosf sinf radf : K → K)
    (angle decay : K) (st : Turtle2D K) (c : Char) :
    (step2d cosf sinf radf angle decay st c).z = st.z := by
  unfold step2d
  split_ifs <;> first
    | rfl
    | (rcases st.stack with _ | ⟨⟨sx, sy, sdir, slen⟩, rest⟩ <;> rfl)

lemma foldl2d_z {K : Type} [Field K] (cosf sinf radf : K → K)
    (angle decay : K) (l : List Char) (st : Turtle2D K) :
    (l.foldl (step2d cosf sinf radf angle decay) st).z = st.z := by
  induction l generalizing st with
  | nil => rfl
  | cons c l ih => rw [List.foldl_cons, ih, step2d_z]

lemma step2d_stack_of_ne {K : Type} [Field K] (cosf sinf radf : K → K)
    (angle decay : K) (st : Turtle2D K) (c : Char)
    (h1 : c ≠ '[') (h2 : c ≠ ']') :
    (step2d cosf sinf radf angle decay st c).stack = st.stack := by
  unfold step2d
  split_ifs <;> simp_all

lemma step2d_push {K : Type} [Field K] (cosf sinf radf : K → K)
    (angle decay : K) (st : Turtle2D K) :
    step2d cosf sinf radf angle decay st '[' =
      { st with
        stack := (st.x, st.y, st.direction, st.current_length) :: st.stack,
        current_length := st.current_length * decay } := by
  simp [step2d]

lemma step2d_pop {K : Type} [Field K] (cosf sinf radf : K → K)
    (angle decay : K) (st : Turtle2D K) (sx sy sdir slen : K)
    (rest : List (K × K × K × K))
    (hs : st.stack = (sx, sy, sdir, slen) :: rest) :
    step2d cosf sinf radf angle decay st ']' =
      { st with x := sx, y := sy, direction := sdir, current_length := slen,
                stack := rest } := by
  simp [step2d, hs]

lemma balInner_stack {K : Type} [Field K] (cosf sinf radf : K → K)
    (angle decay : K) {s : List Char} (hb : BalInner s) :
    ∀ st : Turtle2D K,
      (s.foldl (step2d cosf sinf radf angle decay) st).stack = st.stack := by
  induction hb with
  | nil => intro st; rfl
  | chr c s h1 h2 _ ih =>
    intro st
    rw [List.foldl_cons, ih, step2d_stack_of_ne cosf sinf radf angle decay st c h1 h2]
  | grp s t _ _ ihs iht =>
    intro st
    rw [List.foldl_cons, List.foldl_append, List.foldl_cons, iht]
    rw [step2d_pop cosf sinf radf angle decay _ st.x st.y st.direction
      st.current_length st.stack (by rw [ihs, step2d_push])]

lemma sameState_trans {K : Type} {a b c : Turtle2D K}
    (h1 : sameState a b) (h2 : sameState b c) : sameState a c :=
  ⟨h1.1.trans h2.1, h1.2.1.trans h2.2.1, h1.2.2.1.trans h2.2.2.1,
   h1.2.2.2.1.trans h2.2.2.2.1, h1.2.2.2.2.1.trans h2.2.2.2.2.1,
   h1.2.2.2.2.2.trans h2.2.2.2.2.2⟩

lemma balGroups_sameState {K : Type} [Field K] (cosf sinf radf : K → K)
    (angle decay : K) {s : List Char} (hb : BalGroups s) :
    ∀ st : Turtle2D K,
      sameState (s.foldl (step2d cosf sinf radf angle decay) st) st := by
  induction hb with
  | nil => intro st; exact ⟨rfl, rfl, rfl, rfl, rfl, rfl⟩
  | grp s t hs _ iht =>
    intro st
    rw [List.foldl_cons, List.foldl_append, List.foldl_cons]
    rw [step2d_pop cosf sinf radf angle decay _ st.x st.y st.direction
      st.current_length st.stack
      (by rw [balInner_stack cosf sinf radf angle decay hs, step2d_push])]
    refine sameState_trans (iht _) ?_
    refine ⟨rfl, rfl, ?_, rfl, rfl, rfl⟩
    show (s.foldl (step2d cosf sinf radf angle decay)
      (step2d cosf sinf radf angle decay st '[')).z = st.z
    rw [foldl2d_z, step2d_z]

/-- C4 (amended): a command string consisting only of matched bracket
groups restores position, heading, step length and the branch stack to
their initial values, and wrapping any command string whose own brackets
are fully matched in one additional bracket pair likewise restores the
state before the opening bracket. -/
theorem bracket_roundtrip {K : Type} [Field K] (cosf sinf radf : K → K)
    (angle decay : K) :
    (∀ s : List Char, BalGroups s → ∀ st : Turtle2D K,
      sameState (s.foldl (step2d cosf sinf radf angle decay) st) st) ∧
    (∀ s : List Char, BalInner s → ∀ st : Turtle2D K,
      sameState (('[' :: (s ++ [']'])).foldl
        (step2d cosf sinf radf angle decay) st) st) := by
  constructor
  · exact fun s hb st => balGroups_sameState cosf sinf radf angle decay hb st
  · intro s hb st
    exact balGroups_sameState cosf sinf radf angle decay
      (BalGroups.grp s [] hb BalGroups.nil) st

theorem bracket_roundtrip_witness :
    BalGroups ['[', 'F', ']'] ∧
    sameState ((['[', 'F', ']']).foldl
      (step2d (K := ℚ) id id id 90 (7 / 10)) ⟨0, 0, 0, 90, 1, [], []⟩)
      ⟨0, 0, 0, 90, 1, [], []⟩ :=
  ⟨BalGroups.grp ['F'] []
      (BalInner.chr 'F' [] (by decide) (by decide) BalInner.nil) BalGroups.nil,
   (bracket_roundtrip (K := ℚ) id id id 90 (7 / 10)).1 ['[', 'F', ']']
     (BalGroups.grp ['F'] []
       (BalInner.chr 'F' [] (by decide) (by decide) BalInner.nil) BalGroups.nil)
     ⟨0, 0, 0, 90, 1, [], []⟩⟩

/-- C4 counterexample: wrapping the arbitrary command string "]F" in one
additional bracket pair does not restore the earlier state, because the
inner unmatched pop consumes the snapshot and the final pop is a no-op
on the empty stack; the y coordinate ends at 1 instead of 0. -/
theorem bracket_roundtrip_counterexample :
    (('[' :: ((']' :: 'F' :: []) ++ [']'])).foldl
      (step2d Real.cos Real.sin (fun d => d * Real.pi / 180) 90 1)
      ⟨0, 0, 0, 90, 1, [], []⟩).y ≠
    (⟨0, 0, 0, 90, 1, [], []⟩ : Turtle2D ℝ).y := by
  have h90 : (90 : ℝ) * Real.pi / 180 = Real.pi / 2 := by ring
  simp only [List.cons_append, List.nil_append, List.foldl_cons, List.foldl_nil]
  simp [step2d, h90, Real.sin_pi_div_two]

lemma step2d_lines {K : Type} [Field K] (cosf sinf radf : K → K)
    (angle decay : K) (st : Turtle2D K) (c : Char) :
    (step2d cosf sinf radf angle decay st c).lines =
      st.lines ++
        (if c = 'F' ∨ c = 'G' then
          [((st.x, st.y, st.z),
            (st.x + st.current_length * cosf (radf st.direction),
             st.y + st.current_length * sinf (radf st.direction), st.z))]
        else []) := by
  unfold step2d
  split_ifs <;>
    (try rcases st.stack with _ | ⟨⟨sx, sy, sdir, slen⟩, rest⟩) <;> simp_all

lemma foldl2d_lines_length {K : Type} [Field K] (cosf sinf radf : K → K)
    (angle decay : K) (l : List Char) (st : Turtle2D K) :
    ((l.foldl (step2d cosf sinf radf angle decay) st).lines).length =
      st.lines.length + (l.filter (fun c => c == 'F' || c == 'G')).length := by
  induction l generalizing st with
  | nil => simp
  | cons c l ih =>
    rw [List.foldl_cons, ih, step2d_lines]
    by_cases h : c = 'F' ∨ c = 'G'
    · have hp : (c == 'F' || c == 'G') = true := by
        rcases h with h | h <;> simp [h]
      rw [if_pos h]
      simp [List.filter_cons, hp]
      omega
    · have hp : (c == 'F' || c == 'G') = false := by
        push_neg at h
        simp [h.1, h.2]
      rw [if_neg h]
      simp [List.filter_cons, hp]

set_option maxHeartbeats 1000000 in
lemma step3d_lines {K : Type} [Field K] (cosf sinf : K → K)
    (angle_rad decay : K) (st : Turtle3D K) (c : Char) :
    (step3d cosf sinf angle_rad decay st c).lines =
      st.lines ++
        (if c = 'F' ∨ c = 'G' then
          [(st.position,
            (⟨st.position.x + st.heading.x * st.current_length,
              st.position.y + st.heading.y * st.current_length,
              st.position.z + st.heading.z * st.current_length⟩ : Vec3 K))]
        else []) := by
  unfold step3d
  split_ifs <;>
    (try rcases st.stack with _ | ⟨⟨p, hv, lv, uv, len⟩, rest⟩) <;> simp_all

lemma foldl3d_lines_length {K : Type} [Field K] (cosf sinf : K → K)
    (angle_rad decay : K) (l : List Char) (st : Turtle3D K) :
    ((l.foldl (step3d cosf sinf angle_rad decay) st).lines).length =
      st.lines.length + (l.filter (fun c => c == 'F' || c == 'G')).length := by
  induction l generalizing st with
  | nil => simp
  | cons c l ih =>
    rw [List.foldl_cons, ih, step3d_lines]
    by_cases h : c = 'F' ∨ c = 'G'
    · have hp : (c == 'F' || c == 'G') = true := by
        rcases h with h | h <;> simp [h]
      rw [if_pos h]
      simp [List.filter_cons, hp]
      omega
    · have hp : (c == 'F' || c == 'G') = false := by
        push_neg at h
        simp [h.1, h.2]
      rw [if_neg h]
      simp [List.filter_cons, hp]

lemma foldl2d_lines_eq {K : Type} [Field K] (cosf sinf radf : K → K)
    (angle decay : K) (l : List Char) (st : Turtle2D K) :
    (l.foldl (step2d cosf sinf radf angle decay) st).lines =
      st.lines ++ segs2d cosf sinf radf angle decay l st := by
  induction l generalizing st with
  | nil => simp [segs2d]
  | cons c l ih =>
    rw [List.foldl_cons, ih, step2d_lines, segs2d, List.append_assoc]

lemma foldl3d_lines_eq {K : Type} [Field K] (cosf sinf : K → K)
    (angle_rad decay : K) (l : List Char) (st : Turtle3D K) :
    (l.foldl (step3d cosf sinf angle_rad decay) st).lines =
      st.lines ++ segs3d cosf sinf angle_rad decay l st := by
  induction l generalizing st with
  | nil => simp [segs3d]
  | cons c l ih =>
    rw [List.foldl_cons, ih, step3d_lines, segs3d, List.append_assoc]

/-- C10: each interpreter emits exactly one line segment per occurrence
of F or G in the command string, in traversal order: its output equals
the list with one entry at each F or G (built from the turtle state
reached at that command) and no entry for any other symbol; one step
appends exactly one segment at an F or G and none otherwise; hence the
segment count equals the number of F/G occurrences and an empty command
string yields an empty segment list. -/
theorem segments_per_forward_command (K : Type) [Field K]
    (cosf sinf radf : K → K) (normf : Vec3 K → Vec3 K) (angle : K)
    (commands : String) (start2 : K × K × K) (start3 : Vec3 K)
    (initial_angle : K) (initial_direction : Option (Vec3 K))
    (length length_decay : K) :
    interpret_2d cosf sinf radf angle commands start2 initial_angle
        length length_decay =
      segs2d cosf sinf radf angle length_decay commands.data
        ⟨start2.1, start2.2.1, start2.2.2, initial_angle, length, [], []⟩ ∧
    interpret_3d cosf sinf radf normf angle commands start3
        initial_direction length length_decay =
      segs3d cosf sinf (radf angle) length_decay commands.data
        ⟨start3, normf (initial_direction.getD ⟨0, 0, 1⟩),
         ⟨-1, 0, 0⟩, ⟨0, 1, 0⟩, length, [], []⟩ ∧
    (∀ (st : Turtle2D K) (c : Char),
      (step2d cosf sinf radf angle length_decay st c).lines =
        st.lines ++
          (if c = 'F' ∨ c = 'G' then
            [((st.x, st.y, st.z),
              (st.x + st.current_length * cosf (radf st.direction),
               st.y + st.current_length * sinf (radf st.direction), st.z))]
          else [])) ∧
    (∀ (st : Turtle3D K) (c : Char),
      (step3d cosf sinf (radf angle) length_decay st c).lines =
        st.lines ++
          (if c = 'F' ∨ c = 'G' then
            [(st.position,
              (⟨st.position.x + st.heading.x * st.current_length,
                st.position.y + st.heading.y * st.current_length,
                st.position.z + st.heading.z * st.current_length⟩ : Vec3 K))]
          else [])) ∧
    (interpret_2d cosf sinf radf angle commands start2 initial_angle
        length length_decay).length = countFG commands ∧
    (interpret_3d cosf sinf radf normf angle commands start3
        initial_direction length length_decay).length = countFG commands ∧
    interpret_2d cosf sinf radf angle "" start2 initial_angle length
        length_decay = [] ∧
    interpret_3d cosf sinf radf normf angle "" start3 initial_direction
        length length_decay = [] := by
  refine ⟨?_, ?_,
    fun st c => step2d_lines cosf sinf radf angle length_decay st c,
    fun st c => step3d_lines cosf sinf (radf angle) length_decay st c,
    ?_, ?_, rfl, rfl⟩
  · rw [interpret_2d, foldl2d_lines_eq]
    simp
  · rw [interpret_3d, foldl3d_lines_eq]
    simp
  · rw [interpret_2d, foldl2d_lines_length]
    simp [countFG]
  · rw [interpret_3d, foldl3d_lines_length]
    simp [countFG]

lemma step2d_forward {K : Type} [Field K] (cosf sinf radf : K → K)
    (angle decay : K) (st : Turtle2D K) :
    step2d cosf sinf radf angle decay st 'F' =
      { st with x := st.x + st.current_length * cosf (radf st.direction),
                y := st.y + st.current_length * sinf (radf st.direction),
                lines := st.lines ++
                  [((st.x, st.y, st.z),
                    (st.x + st.current_length * cosf (radf st.direction),
                     st.y + st.current_length * sinf (radf st.direction),
                     st.z))] } := by
  simp [step2d]

lemma step2d_plus {K : Type} [Field K] (cosf sinf radf : K → K)
    (angle decay : K) (st : Turtle2D K) :
    step2d cosf sinf radf angle decay st '+' =
      { st with direction := st.direction - angle } := by
  simp [step2d]

/-- C8: the 2D interpreter on F+F+F+F with a 90 degree grammar angle,
initial heading 90 degrees, step length 1 and start point the origin
emits exactly four unit segments tracing a closed unit square whose last
endpoint is the start point, with the plus command decreasing the
heading by the grammar angle at each turn. -/
theorem interpret_2d_unit_square (decay : ℝ) :
    interpret_2d Real.cos Real.sin (fun d => d * Real.pi / 180) 90
        "F+F+F+F" (0, 0, 0) 90 1 decay =
      [((0, 0, 0), (0, 1, 0)), ((0, 1, 0), (1, 1, 0)),
       ((1, 1, 0), (1, 0, 0)), ((1, 0, 0), (0, 0, 0))] ∧
    (∀ st : Turtle2D ℝ,
      (step2d Real.cos Real.sin (fun d => d * Real.pi / 180) 90 decay
        st '+').direction = st.direction - 90) := by
  constructor
  · rw [interpret_2d,
      show "F+F+F+F".data = ['F', '+', 'F', '+', 'F', '+', 'F'] from rfl]
    simp only [List.foldl_cons, List.foldl_nil, step2d_forward, step2d_plus]
    have h1 : (90 : ℝ) * Real.pi / 180 = Real.pi / 2 := by ring
    have h2 : ((90 : ℝ) - 90) * Real.pi / 180 = 0 := by ring
    have h3 : ((90 : ℝ) - 90 - 90) * Real.pi / 180 = -(Real.pi / 2) := by ring
    have h4 : ((90 : ℝ) - 90 - 90 - 90) * Real.pi / 180 = -Real.pi := by ring
    rw [h1, h2, h3, h4]
    norm_num [Real.cos_pi_div_two, Real.sin_pi_div_two, Real.cos_zero,
      Real.sin_zero, Real.cos_neg, Real.sin_neg, Real.cos_pi, Real.sin_pi]
  · intro st
    rw [step2d_plus]

lemma wrap_pred (y h : Nat) (hy : y < h) :
    (((y : ℤ) - 1) % (h : ℤ)).toNat = (y + h - 1) % h := by
  have key : ((y : ℤ) - 1) % (h : ℤ) = (((y + h - 1) % h : ℕ) : ℤ) := by
    rw [Int.ofNat_emod]
    have e : (((y + h - 1 : ℕ)) : ℤ) = (y : ℤ) + (h : ℤ) - 1 := by omega
    rw [e]
    have base := @Int.add_mul_emod_self_left ((y : ℤ) - 1) (h : ℤ) 1
    rw [show (y : ℤ) - 1 + (h : ℤ) * 1 = (y : ℤ) + (h : ℤ) - 1 from by ring]
      at base
    exact base.symm
  rw [key, Int.toNat_natCast]

lemma wrap_succ (y h : Nat) :
    (((y : ℤ) + 1) % (h : ℤ)).toNat = (y + 1) % h := by
  have key : ((y : ℤ) + 1) % (h : ℤ) = (((y + 1) % h : ℕ) : ℤ) := by
    rw [Int.ofNat_emod]
    push_cast
    ring_nf
  rw [key, Int.toNat_natCast]

lemma gget_map_range (f : Nat → Nat → ℚ) (h w y x : Nat)
    (hy : y < h) (hx : x < w) :
    gget ((List.range h).map (fun y => (List.range w).map (fun x => f y x)))
      y x = f y x := by
  have h1 : (List.map (fun y => List.map (fun x => f y x) (List.range w))
      (List.range h)).getD y [] = List.map (fun x => f y x) (List.range w) := by
    rw [List.getD_eq_getElem?_getD, List.getElem?_map, List.getElem?_range hy]
    rfl
  have h2 : (List.map (fun x => f y x) (List.range w)).getD x 0 = f y x := by
    rw [List.getD_eq_getElem?_getD, List.getElem?_map, List.getElem?_range hx]
    rfl
  unfold gget
  rw [h1, h2]

lemma row_zero_length (g : Grid) (w : Nat)
    (hrow : ∀ r ∈ g, r.length = w) (hg : 0 < g.length) :
    (g.getD 0 []).length = w := by
  rw [List.getD_eq_getElem?_getD, List.getElem?_eq_getElem hg]
  exact hrow _ (List.getElem_mem hg)

lemma laplacian_eq_lapSpec (g : Grid) (h w y x : Nat) (hg : g.length = h)
    (hrow : ∀ r ∈ g, r.length = w) (hy : y < h) (hx : x < w) :
    laplacian g x y = lapSpec g h w y x := by
  have hh : 0 < h := lt_of_le_of_lt (Nat.zero_le y) hy
  have hw0 : (g.getD 0 []).length = w := row_zero_length g w hrow (by omega)
  simp only [laplacian, lapSpec]
  rw [hg, hw0, wrap_pred y h hy, wrap_succ y h, wrap_pred x w hx, wrap_succ x w]

/-- C2: each simulation step computes both next grids purely from the
grids of the previous step: every cell of the new A and B grids equals
the clamped Gray-Scott update built from the previous grids with the
toroidal 4-neighbor Laplacian, diffusion rates Da = 1 and Db = 1/2 and
time step dt = 1; the simulator returns the B field of the iterated
step, and each iterated state is the step applied to the previous
state. -/
theorem rd_step_formula (h w y x : Nat) (feed kill : ℚ) (A B : Grid)
    (hA : A.length = h) (hAr : ∀ r ∈ A, r.length = w)
    (hB : B.length = h) (hBr : ∀ r ∈ B, r.length = w)
    (hy : y < h) (hx : x < w) :
    (gget (rdStep w h feed kill A B).1 y x =
      max 0 (min 1 (gget A y x +
        1 * (1 * lapSpec A h w y x -
          gget A y x * gget B y x * gget B y x +
          feed * (1 - gget A y x)))) ∧
     gget (rdStep w h feed kill A B).2 y x =
      max 0 (min 1 (gget B y x +
        1 * ((1 / 2) * lapSpec B h w y x +
          gget A y x * gget B y x * gget B y x -
          (kill + feed) * gget B y x)))) ∧
    (∀ (width height iterations : Nat) (s : ℤ),
      reaction_diffusion width height iterations feed kill s =
        Option.map
          (fun p => (rdState width height feed kill p.1 iterations).2)
          (genCenters width height s 10)) ∧
    (∀ (width height n : Nat) (cs : List (ℤ × ℤ)),
      rdState width height feed kill cs (n + 1) =
        rdIter width height feed kill
          (rdState width height feed kill cs n)) := by
  refine ⟨⟨?_, ?_⟩, ?_, ?_⟩
  · simp only [rdStep]
    rw [gget_map_range _ h w y x hy hx,
      laplacian_eq_lapSpec A h w y x hA hAr hy hx]
  · simp only [rdStep]
    rw [gget_map_range _ h w y x hy hx,
      laplacian_eq_lapSpec B h w y x hB hBr hy hx]
  · intro width height iterations s
    unfold reaction_diffusion
    rcases genCenters width height s 10 with _ | ⟨cs, st⟩ <;> rfl
  · intro width height n cs
    unfold rdState
    rw [Function.iterate_succ_apply']

theorem rd_step_formula_witness :
    (([[(0 : ℚ)]] : Grid).length = 1 ∧ (∀ r ∈ ([[(0 : ℚ)]] : Grid), r.length = 1) ∧
      (0 : Nat) < 1) ∧
    ((gget (rdStep 1 1 0 0 [[(0 : ℚ)]] [[(0 : ℚ)]]).1 0 0 =
      max 0 (min 1 (gget [[(0 : ℚ)]] 0 0 +
        1 * (1 * lapSpec [[(0 : ℚ)]] 1 1 0 0 -
          gget [[(0 : ℚ)]] 0 0 * gget [[(0 : ℚ)]] 0 0 * gget [[(0 : ℚ)]] 0 0 +
          0 * (1 - gget [[(0 : ℚ)]] 0 0)))) ∧
     gget (rdStep 1 1 0 0 [[(0 : ℚ)]] [[(0 : ℚ)]]).2 0 0 =
      max 0 (min 1 (gget [[(0 : ℚ)]] 0 0 +
        1 * ((1 / 2) * lapSpec [[(0 : ℚ)]] 1 1 0 0 +
          gget [[(0 : ℚ)]] 0 0 * gget [[(0 : ℚ)]] 0 0 * gget [[(0 : ℚ)]] 0 0 -
          (0 + 0) * gget [[(0 : ℚ)]] 0 0)))) ∧
    (∀ (width height iterations : Nat) (s : ℤ),
      reaction_diffusion width height iterations 0 0 s =
        Option.map (fun p => (rdState width height 0 0 p.1 iterations).2)
          (genCenters width height s 10)) ∧
    (∀ (width height n : Nat) (cs : List (ℤ × ℤ)),
      rdState width height 0 0 cs (n + 1) =
        rdIter width height 0 0 (rdState width height 0 0 cs n))) :=
  ⟨⟨by decide, by decide, by decide⟩,
   rd_step_formula 1 1 0 0 0 0 [[(0 : ℚ)]] [[(0 : ℚ)]]
     (by decide) (by decide) (by decide) (by decide) (by decide) (by decide)⟩

lemma clamp01_bounds (q : ℚ) : 0 ≤ max 0 (min 1 q) ∧ max 0 (min 1 q) ≤ 1 :=
  ⟨le_max_left 0 _, max_le (by norm_num) (min_le_left 1 q)⟩

lemma gridOK_build (h w : Nat) (f : Nat → Nat → ℚ)
    (hf : ∀ y x, 0 ≤ f y x ∧ f y x ≤ 1) :
    gridOK h w ((List.range h).map
      (fun y => (List.range w).map (fun x => f y x))) = true := by
  simp only [gridOK, rowOK, cellOK, Bool.and_eq_true, decide_eq_true_eq,
    List.all_eq_true, List.length_map, List.length_range]
  refine ⟨trivial, ?_⟩
  intro r hr
  obtain ⟨y, hy, rfl⟩ := List.mem_map.mp hr
  refine ⟨by simp, ?_⟩
  intro q hq
  obtain ⟨x, hx, rfl⟩ := List.mem_map.mp hq
  exact ⟨(hf y x).1, (hf y x).2⟩

lemma gridOK_rdStep (w h : Nat) (f k : ℚ) (A B : Grid) :
    gridOK h w (rdStep w h f k A B).1 = true ∧
    gridOK h w (rdStep w h f k A B).2 = true := by
  constructor <;>
    (simp only [rdStep]; exact gridOK_build h w _ (fun y x => clamp01_bounds _))

lemma all_set {α : Type} (p : α → Bool) (a : α) (ha : p a = true) :
    ∀ (l : List α) (i : Nat), l.all p = true → (l.set i a).all p = true := by
  intro l
  induction l with
  | nil => intro i _; simp
  | cons b l ih =>
    intro i hl
    cases i with
    | zero =>
      simp only [List.set_cons_zero, List.all_cons, Bool.and_eq_true] at hl ⊢
      exact ⟨ha, hl.2⟩
    | succ i =>
      simp only [List.set_cons_succ, List.all_cons, Bool.and_eq_true] at hl ⊢
      exact ⟨hl.1, ih i hl.2⟩

lemma gridOK_setCell (h w : Nat) (g : Grid) (y x : Nat)
    (hg : gridOK h w g = true) : gridOK h w (setCell g y x 1) = true := by
  rcases Nat.lt_or_ge y g.length with hy | hy
  · simp only [gridOK, Bool.and_eq_true, decide_eq_true_eq] at hg ⊢
    obtain ⟨hlen, hall⟩ := hg
    have hrow : (g.getD y []) ∈ g := by
      rw [List.getD_eq_getElem?_getD, List.getElem?_eq_getElem hy]
      exact List.getElem_mem hy
    have hrowOK : rowOK w (g.getD y []) = true := by
      rw [List.all_eq_true] at hall
      exact hall _ hrow
    constructor
    · rw [setCell, List.length_set]
      exact hlen
    · rw [setCell]
      refine all_set (rowOK w) _ ?_ g y hall
      simp only [rowOK, Bool.and_eq_true, decide_eq_true_eq] at hrowOK ⊢
      refine ⟨by rw [List.length_set]; exact hrowOK.1, ?_⟩
      exact all_set cellOK 1 (by decide) _ x hrowOK.2
  · rw [setCell, List.set_eq_of_length_le hy]
    exact hg

lemma foldl_preserve {α β : Type} (P : α → Prop) (f : α → β → α)
    (hf : ∀ a b, P a → P (f a b)) :
    ∀ (l : List β) (a : α), P a → P (l.foldl f a) := by
  intro l
  induction l with
  | nil => exact fun a ha => ha
  | cons b l ih => exact fun a ha => ih _ (hf a b ha)

lemma gridOK_seedSpot (h w : Nat) (g : Grid) (c : ℤ × ℤ)
    (hg : gridOK h w g = true) : gridOK h w (seedSpot h w g c) = true := by
  unfold seedSpot
  refine foldl_preserve (fun g => gridOK h w g = true) _ ?_ spotOffsets g hg
  intro a dy ha
  refine foldl_preserve (fun g => gridOK h w g = true) _ ?_ spotOffsets a ha
  intro b dx hb
  split_ifs
  · exact gridOK_setCell h w b _ _ hb
  · exact hb

lemma gridOK_seedSpots (h w : Nat) (g : Grid) (cs : List (ℤ × ℤ))
    (hg : gridOK h w g = true) : gridOK h w (seedSpots h w g cs) = true := by
  unfold seedSpots
  exact foldl_preserve (fun g => gridOK h w g = true) _
    (fun a c ha => gridOK_seedSpot h w a c ha) cs g hg

lemma gridOK_initA (w h : Nat) : gridOK h w (initA w h) = true := by
  unfold initA
  exact gridOK_build h w (fun _ _ => 1) (fun y x => by norm_num)

lemma gridOK_initB (w h : Nat) (cs : List (ℤ × ℤ)) :
    gridOK h w (initB w h cs) = true := by
  unfold initB
  exact gridOK_seedSpots h w _ cs
    (gridOK_build h w (fun _ _ => 0) (fun y x => by norm_num))

lemma gridOK_rdState (w h : Nat) (f k : ℚ) (cs : List (ℤ × ℤ)) (n : Nat) :
    gridOK h w (rdState w h f k cs n).1 = true ∧
    gridOK h w (rdState w h f k cs n).2 = true := by
  cases n with
  | zero => exact ⟨gridOK_initA w h, gridOK_initB w h cs⟩
  | succ n =>
    rw [rdState, Function.iterate_succ_apply']
    exact gridOK_rdStep w h f k _ _

/-- C5: for any parameters and any seeded centers, after every iteration
both concentration grids keep their height by width dimensions and every
cell lies in [0, 1], and any grid returned by reaction_diffusion has the
same property. -/
theorem rd_bounds_and_dims (w h : Nat) (f k : ℚ) (cs : List (ℤ × ℤ))
    (n it : Nat) (s : ℤ) :
    gridOK h w (rdState w h f k cs n).1 = true ∧
    gridOK h w (rdState w h f k cs n).2 = true ∧
    (reaction_diffusion w h it f k s).all (gridOK h w) = true := by
  refine ⟨(gridOK_rdState w h f k cs n).1, (gridOK_rdState w h f k cs n).2, ?_⟩
  unfold reaction_diffusion
  rcases genCenters w h s 10 with _ | ⟨cs', st'⟩
  · rfl
  · exact (gridOK_rdState w h f k cs' it).2

/-- C6: reaction_diffusion is deterministic given its arguments: two
runs with equal width, height, iteration count, feed rate, kill rate
and seed produce identical results, the modelled pseudorandom seeding
being a pure function of the seed. -/
theorem rd_deterministic (w h it : Nat) (f k : ℚ) (s : ℤ)
    (w' h' it' : Nat) (f' k' : ℚ) (s' : ℤ)
    (hw : w = w') (hh : h = h') (hit : it = it') (hf : f = f')
    (hk : k = k') (hs : s = s') :
    reaction_diffusion w h it f k s =
      reaction_diffusion w' h' it' f' k' s' := by
  subst hw hh hit hf hk hs
  rfl

theorem rd_deterministic_witness :
    (20 : Nat) = 20 ∧
    reaction_diffusion 20 20 1 0 0 7 = reaction_diffusion 20 20 1 0 0 7 :=
  ⟨rfl, rd_deterministic 20 20 1 0 0 7 20 20 1 0 0 7
    rfl rfl rfl rfl rfl rfl⟩

lemma genCenters_isSome (w h : Nat) (hw : 20 ≤ w) (hh : 20 ≤ h) :
    ∀ (n : Nat) (state : ℤ), (genCenters w h state n).isSome = true := by
  intro n
  induction n with
  | zero => intro state; rfl
  | succ n ih =>
    intro state
    have hw' : ¬ ((w : ℤ) - 10 < 10) := by omega
    have hh' : ¬ ((h : ℤ) - 10 < 10) := by omega
    simp only [genCenters, randint, if_neg hw', if_neg hh']
    rcases hr : genCenters w h (rngNext (rngNext state)) n with _ | ⟨rest, s3⟩
    · have := ih (rngNext (rngNext state))
      rw [hr] at this
      simp at this
    · rfl

/-- C9 (amended): reaction_diffusion runs to completion and returns a
grid for every width and height of at least 20 and any iteration count,
feed rate, kill rate and seed; rates are not validated and pathological
values still give defined output.  For width or height below 20 the
seeding draw randint(10, dimension - 10) has an empty range and the run
fails instead. -/
theorem rd_total_for_large_grids (w h it : Nat) (f k : ℚ) (s : ℤ)
    (hw : 20 ≤ w) (hh : 20 ≤ h) :
    (reaction_diffusion w h it f k s).isSome = true := by
  unfold reaction_diffusion
  rcases hg : genCenters w h s 10 with _ | ⟨cs, st⟩
  · have := genCenters_isSome w h hw hh 10 s
    rw [hg] at this
    simp at this
  · rfl

theorem rd_total_for_large_grids_witness :
    (20 : Nat) ≤ 20 ∧ (reaction_diffusion 20 20 1 0 0 0).isSome = true :=
  ⟨by decide, rd_total_for_large_grids 20 20 1 0 0 0 (by decide) (by decide)⟩

/-- C9 counterexample: with width 15 the very first seeding draw
randint(10, 15 - 10) has an empty range, so the run fails rather than
returning a grid, refuting the claim that reaction_diffusion never
fails for any parameter combination. -/
theorem rd_small_grid_none :
    reaction_diffusion 15 100 3000 (11 / 200) (31 / 500) 42 = none := by
  rfl
